import Mathlib

/-!
Shallow embedding of the sequence-field changeset utilities
(`packages/dds/tree/src/feature-libraries/sequence-field/utils.ts`) and the
declarations they depend on, together with proofs of the specification claims
about them.

Machine integers of the source are modelled as `Nat` (ids and counts are
non-negative and only added); range arithmetic that can go negative in the
source (`id + count - 1`) is carried out in `Int`.  Fatal assertions and
`fail` calls of the source are modelled by returning `none` from an
`Option`-valued function.
-/

namespace SeqField

/-- Revision identifiers are opaque tags compared only for equality (and looked
up in the revision metadata); they are modelled as naturals. -/
abbrev RevisionTag := Nat

/-- Changeset-local identifiers are non-negative integers local to a revision. -/
abbrev ChangesetLocalId := Nat

/-- Modelled from the spec: a change atom / cell address is a pair
`(revision, localId)` (§3 "Cell"); the `core` module declaring `ChangeAtomId`
is not among the provided sources. -/
structure ChangeAtomId where
  revision : Option RevisionTag
  localId : ChangesetLocalId
deriving DecidableEq, Repr

/-- Modelled from the spec: a lineage event records
`{revision, id, count, offset}` (§3 "Cell"). -/
structure LineageEvent where
  revision : RevisionTag
  id : ChangesetLocalId
  count : Nat
  offset : Nat
deriving DecidableEq, Repr

/-- Modelled from the spec: an id range `{id, count}` (§3 "Cell",
`adjacentCells`). -/
structure IdRange where
  id : ChangesetLocalId
  count : Nat
deriving DecidableEq, Repr

/-- Modelled from the spec: a `CellId` is a `ChangeAtomId` together with
optional `lineage` and `adjacentCells` ordering evidence (§3 "Cell"). -/
structure CellId extends ChangeAtomId where
  lineage : Option (List LineageEvent) := none
  adjacentCells : Option (List IdRange) := none
deriving DecidableEq, Repr

/-- Modelled from the spec: the kind tag of a detach's `idOverride`
(`DetachIdOverrideType` in `types.ts`, which is not among the provided
sources); `idOverride` "redirects a detach's output identity" (§3). -/
inductive DetachIdOverrideType where
  | unattach
  | redetach
deriving DecidableEq, Repr

/-- Modelled from the spec: a detach's `idOverride` carries a kind tag and the
overriding cell id (§3, type-specific mark fields). -/
structure DetachIdOverride where
  type : DetachIdOverrideType
  id : CellId
deriving DecidableEq, Repr

/-- Modelled from the spec: the `Insert` effect (§3 "Mark"): a revision and a
changeset-local id. -/
structure Insert where
  revision : Option RevisionTag := none
  id : ChangesetLocalId
deriving DecidableEq, Repr

/-- Modelled from the spec: the `MoveIn` effect (§3 "Mark"): revision, move id
and the optional `finalEndpoint` of a move chain. -/
structure MoveIn where
  revision : Option RevisionTag := none
  id : ChangesetLocalId
  finalEndpoint : Option ChangeAtomId := none
deriving DecidableEq, Repr

/-- Modelled from the spec: the `Delete` effect (§3 "Mark"): revision, id and
optional `idOverride`. -/
structure Delete where
  revision : Option RevisionTag := none
  id : ChangesetLocalId
  idOverride : Option DetachIdOverride := none
deriving DecidableEq, Repr

/-- Modelled from the spec: the `MoveOut` effect (§3 "Mark"). -/
structure MoveOut where
  revision : Option RevisionTag := none
  id : ChangesetLocalId
  idOverride : Option DetachIdOverride := none
  finalEndpoint : Option ChangeAtomId := none
deriving DecidableEq, Repr

/-- An attach effect is an `Insert` or a `MoveIn` (`Attach` in `types.ts`). -/
inductive Attach where
  | insert (eff : Insert)
  | moveIn (eff : MoveIn)
deriving DecidableEq, Repr

/-- A detach effect is a `Delete` or a `MoveOut` (`Detach` in `types.ts`). -/
inductive Detach where
  | delete (eff : Delete)
  | moveOut (eff : MoveOut)
deriving DecidableEq, Repr

/-- The closed union of mark effects: NoOp, Insert, MoveIn, Delete, MoveOut and
AttachAndDetach (whose components are a proper attach and a proper detach, as
in `types.ts`). -/
inductive MarkEffect where
  | noop
  | attach (a : Attach)
  | detach (d : Detach)
  | attachAndDetach (attach : Attach) (detach : Detach)
deriving DecidableEq, Repr

/-- A mark: an effect applied to `count` contiguous cells, with optional input
cell id, nested node change (opaque type `α`) and vestigial endpoint
(`CellMark` over `MarkEffect` plus the `VestigialEndpoint` extension of
`helperTypes.ts`). -/
structure Mark (α : Type) where
  effect : MarkEffect
  count : Nat
  cellId : Option CellId := none
  changes : Option α := none
  vestigialEndpoint : Option ChangeAtomId := none
deriving DecidableEq, Repr

/-- A changeset is an ordered list of marks. -/
abbrev Changeset (α : Type) := List (Mark α)

/-- Modelled from the spec: a tagged change pairs a changeset with the revision
of the enclosing changeset and, for rollbacks, the revision being rolled back
(`TaggedChange` of the `core` module, used by `DetachedNodeTracker.apply`). -/
structure TaggedChange (α : Type) where
  revision : Option RevisionTag := none
  rollbackOf : Option RevisionTag := none
  change : Changeset α
deriving DecidableEq, Repr

/-- Modelled from the spec: the revision metadata source exposes
`getIndex(revision) → integer | undefined`, a total order over the revisions in
scope (§6).  The intention-resolution function used by the modular-schema
layer's `getIntention` is not among the provided sources and is not pinned down
by the spec, so it is carried as an abstract function field. -/
structure RevisionMetadataSource where
  getIndex : RevisionTag → Option Nat
  intention : Option RevisionTag → Option RevisionTag

/-- Modelled from the spec: `areEqualChangeAtomIds` of the `core` module
compares the `(revision, localId)` address (§3 "Cell"). -/
def areEqualChangeAtomIds (a b : ChangeAtomId) : Bool :=
  a.localId == b.localId && a.revision == b.revision

/-- `isAttach`: the effect is an `Insert` or a `MoveIn`. -/
def isAttach : MarkEffect → Bool
  | .attach _ => true
  | _ => false

/-- Whether an `Attach` effect is an `Insert` (`mark.attach.type === "Insert"`). -/
def isInsertAttach : Attach → Bool
  | .insert _ => true
  | .moveIn _ => false

/-- The `revision` field of an attach effect. -/
def Attach.revision : Attach → Option RevisionTag
  | .insert i => i.revision
  | .moveIn m => m.revision

/-- The `revision` field of a detach effect. -/
def Detach.revision : Detach → Option RevisionTag
  | .delete d => d.revision
  | .moveOut m => m.revision

/-- The `id` field of a detach effect. -/
def Detach.id : Detach → ChangesetLocalId
  | .delete d => d.id
  | .moveOut m => m.id

/-- The `idOverride` field of a detach effect. -/
def Detach.idOverride : Detach → Option DetachIdOverride
  | .delete d => d.idOverride
  | .moveOut m => m.idOverride

/-- Core of `isNewAttachEffect` for a proper attach effect:
`(effect.revision ?? revision) === (cellId.revision ?? revision)`. -/
def isNewAttachHere (a : Attach) (cellId : Option CellId) (revision : Option RevisionTag) : Bool :=
  match cellId with
  | none => false
  | some c => (a.revision <|> revision) == (c.revision <|> revision)

/-- `isNewAttachEffect(effect, cellId, revision?)`: an attach (or the attach
component of an AttachAndDetach) whose effective revision matches the cell's
effective revision. -/
def isNewAttachEffect (e : MarkEffect) (cellId : Option CellId)
    (revision : Option RevisionTag) : Bool :=
  match e with
  | .attach a => isNewAttachHere a cellId revision
  | .attachAndDetach a _ => isNewAttachHere a cellId revision
  | _ => false

/-- `isReattachEffect(effect, cellId)`: an attach that is not a new attach
(the source calls `isNewAttachEffect` without a fallback revision). -/
def isReattachEffect (e : MarkEffect) (cellId : Option CellId) : Bool :=
  isAttach e && !isNewAttachEffect e cellId none

/-- `isActiveReattach(mark)`: an attach mark targeting a defined cell that is
a revival rather than a new attach. -/
def isActiveReattach {α : Type} (m : Mark α) : Bool :=
  isAttach m.effect && isReattachEffect m.effect m.cellId && m.cellId.isSome

/-- `isNoopMark`. -/
def isNoopMark {α : Type} (m : Mark α) : Bool :=
  match m.effect with
  | .noop => true
  | _ => false

/-- `areInputCellsEmpty(mark)`: true iff the mark carries a `cellId`. -/
def areInputCellsEmpty {α : Type} (m : Mark α) : Bool :=
  m.cellId.isSome

/-- `areOutputCellsEmpty(mark)`: by mark type — NoOp: empty iff it is a
tombstone (carries a `cellId`); Delete/MoveOut/AttachAndDetach: always empty;
MoveIn/Insert: never empty. -/
def areOutputCellsEmpty {α : Type} (m : Mark α) : Bool :=
  match m.effect with
  | .noop => m.cellId.isSome
  | .detach _ => true
  | .attachAndDetach _ _ => true
  | .attach _ => false

/-- `markEmptiesCells`. -/
def markEmptiesCells {α : Type} (m : Mark α) : Bool :=
  !areInputCellsEmpty m && areOutputCellsEmpty m

/-- `markFillsCells`. -/
def markFillsCells {α : Type} (m : Mark α) : Bool :=
  areInputCellsEmpty m && !areOutputCellsEmpty m

/-- `getInputLength(mark)`: `0` if the input cells are empty, else `count`. -/
def getInputLength {α : Type} (m : Mark α) : Nat :=
  if areInputCellsEmpty m then 0 else m.count

/-- `areOverlappingIdRanges(id1, count1, id2, count2)`; the `id + count - 1`
arithmetic of the source is carried out in `Int` so that empty ranges behave
exactly as in the source. -/
def areOverlappingIdRanges (id1 : ChangesetLocalId) (count1 : Nat)
    (id2 : ChangesetLocalId) (count2 : Nat) : Bool :=
  let lastId1 : Int := (id1 : Int) + (count1 : Int) - 1
  let lastId2 : Int := (id2 : Int) + (count2 : Int) - 1
  decide (((id2 : Int) ≤ (id1 : Int) ∧ (id1 : Int) ≤ lastId2) ∨
    ((id1 : Int) ≤ (id2 : Int) ∧ (id2 : Int) ≤ lastId1))

/-- The result of comparing two cell positions (`CellOrder`). -/
inductive CellOrder where
  | sameCell
  | oldThenNew
  | newThenOld
deriving DecidableEq, Repr

/-- `compareCellPositionsUsingTombstones(oldMarkCell, newMarkCell,
oldChangeKnowledge, newChangeKnowledge, metadata)`.  Knowledge sets are
modelled as lists of (possibly undefined) revisions with membership via
`contains`.  The two `assert(false)` paths of the source ("Inconsistent cell
ordering", "Invalid cell ordering scenario") and the
`assert(oldMarkCell.revision !== undefined)` are modelled by `none`. -/
def compareCellPositionsUsingTombstones (oldMarkCell newMarkCell : ChangeAtomId)
    (oldChangeKnowledge newChangeKnowledge : List (Option RevisionTag))
    (metadata : RevisionMetadataSource) : Option CellOrder :=
  if areEqualChangeAtomIds oldMarkCell newMarkCell then
    some CellOrder.sameCell
  else
    let oldChangeKnowsOfNewMarkCellRevision := oldChangeKnowledge.contains newMarkCell.revision
    let newChangeKnowsOfOldMarkCellRevision := newChangeKnowledge.contains oldMarkCell.revision
    if oldChangeKnowsOfNewMarkCellRevision && newChangeKnowsOfOldMarkCellRevision then
      none
    else if newChangeKnowsOfOldMarkCellRevision then
      some CellOrder.newThenOld
    else if oldChangeKnowsOfNewMarkCellRevision then
      some CellOrder.oldThenNew
    else
      match newMarkCell.revision with
      | none => some CellOrder.newThenOld
      | some newRev =>
        match oldMarkCell.revision with
        | none => none
        | some oldRev =>
          match metadata.getIndex oldRev, metadata.getIndex newRev with
          | some oldIdx, some newIdx =>
            some (if oldIdx < newIdx then CellOrder.newThenOld else CellOrder.oldThenNew)
          | none, none => none
          | none, some _ => some CellOrder.newThenOld
          | some _, none => some CellOrder.oldThenNew

/-- `getIntention(revision, metadata)` of the modular-schema layer, via the
abstract `intention` field of the metadata (see `RevisionMetadataSource`). -/
def getIntention (revision : Option RevisionTag) (metadata : RevisionMetadataSource) :
    Option RevisionTag :=
  metadata.intention revision

/-- `getIntentionIfMetadataProvided(revision, metadata)`. -/
def getIntentionIfMetadataProvided (revision : Option RevisionTag)
    (metadata : Option RevisionMetadataSource) : Option RevisionTag :=
  match metadata with
  | none => revision
  | some md => getIntention revision md

/-- The `mark.revision` consulted by `getInputCellId`: the attach component's
revision for an AttachAndDetach, the effect's revision for any other non-noop
mark, and nothing for a noop. -/
def inputCellMarkRevision : MarkEffect → Option RevisionTag
  | .attachAndDetach a _ => a.revision
  | .noop => none
  | .attach a => a.revision
  | .detach d => d.revision

/-- `getInputCellId(mark, revision, metadata)`. -/
def getInputCellId {α : Type} (m : Mark α) (revision : Option RevisionTag)
    (metadata : Option RevisionMetadataSource) : Option CellId :=
  match m.cellId with
  | none => none
  | some cellId =>
    if cellId.revision.isSome then
      some cellId
    else
      some { cellId with
        revision :=
          getIntentionIfMetadataProvided (inputCellMarkRevision m.effect <|> revision) metadata }

/-- `getDetachOutputId(mark, revision, metadata)`: the detach's `idOverride`
when present, otherwise a fresh id from the detach's effective revision and its
`id`. -/
def getDetachOutputId (d : Detach) (revision : Option RevisionTag)
    (metadata : Option RevisionMetadataSource) : CellId :=
  match d.idOverride with
  | some o => o.id
  | none =>
    { revision := getIntentionIfMetadataProvided (d.revision <|> revision) metadata
      localId := d.id }

/-- `getOutputCellId(mark, revision, metadata)`. -/
def getOutputCellId {α : Type} (m : Mark α) (revision : Option RevisionTag)
    (metadata : Option RevisionMetadataSource) : Option CellId :=
  match m.effect with
  | .detach d => some (getDetachOutputId d revision metadata)
  | .attachAndDetach _ d =>
    if markFillsCells m then none else some (getDetachOutputId d revision metadata)
  | _ =>
    if markFillsCells m then none else getInputCellId m revision metadata

/-- `isImpactful(mark, revision, revisionMetadata)`.  The assertions of the
source (`0x824` "Delete marks must have an output cell ID", `0x825` "MoveIn
marks should target empty cells") are modelled by `none`. -/
def isImpactful {α : Type} (m : Mark α) (revision : Option RevisionTag)
    (revisionMetadata : RevisionMetadataSource) : Option Bool :=
  match m.effect with
  | .noop => some false
  | .detach (.delete _) =>
    match getInputCellId m revision (some revisionMetadata) with
    | none => some true
    | some inputId =>
      match getOutputCellId m revision (some revisionMetadata) with
      | none => none
      | some outputId =>
        some (!areEqualChangeAtomIds inputId.toChangeAtomId outputId.toChangeAtomId)
  | .attachAndDetach _ _ => some true
  | .detach (.moveOut _) => some true
  | .attach (.moveIn _) => if m.cellId.isSome then some true else none
  | .attach (.insert _) => some m.cellId.isSome

/-- `omitMarkEffect(mark)`: a bare NoOp carrying only `cellId`, `changes` and
`count` (the vestigial-endpoint extension is not among the copied fields). -/
def omitMarkEffect {α : Type} (m : Mark α) : Mark α :=
  { effect := .noop, count := m.count, cellId := m.cellId, changes := m.changes,
    vestigialEndpoint := none }

/-- `settleMark(mark, revision, revisionMetadata)`: the mark itself when
impactful, otherwise the mark with its effects stripped. -/
def settleMark {α : Type} (m : Mark α) (revision : Option RevisionTag)
    (revisionMetadata : RevisionMetadataSource) : Option (Mark α) :=
  match isImpactful m revision revisionMetadata with
  | none => none
  | some true => some m
  | some false => some (omitMarkEffect m)

/-- `withNodeChange(mark, changes)`: attaches `changes` to the mark, deleting
any present node change when `changes` is absent; the assertion `0x6a7`
(no node change on a MoveIn mark) is modelled by `none`. -/
def withNodeChange {α : Type} (m : Mark α) (changes : Option α) : Option (Mark α) :=
  match changes with
  | some c =>
    match m.effect with
    | .attach (.moveIn _) => none
    | _ => some { m with changes := some c }
  | none => some { m with changes := none }

/-- `normalizeCellRename(mark, nodeChange?)`: for an AttachAndDetach mark
(assert `0x823`: it must carry a cell id, modelled by `none`), keeps the mark
as-is unless its attach is a revival Insert, in which case it is folded into a
single detach-of-removed-nodes mark.  The source's parameter type restricts the
argument to AttachAndDetach marks; other effects are modelled by `none`. -/
def normalizeCellRename {α : Type} (m : Mark α) (nodeChange : Option α) :
    Option (Mark α) :=
  match m.effect with
  | .attachAndDetach a d =>
    match m.cellId with
    | none => none
    | some _ =>
      if !isInsertAttach a || isNewAttachEffect (.attach a) m.cellId none then
        withNodeChange m nodeChange
      else
        withNodeChange
          { effect := .detach d, count := m.count, cellId := m.cellId }
          (nodeChange <|> m.changes)
  | _ => none

/-- Pointwise loop of `areSameLineage`: events match when their `revision` and
`offset` agree (the source compares only those two fields). -/
def areSameLineageList : List LineageEvent → List LineageEvent → Bool
  | [], [] => true
  | e1 :: t1, e2 :: t2 =>
    e1.revision == e2.revision && e1.offset == e2.offset && areSameLineageList t1 t2
  | _, _ => false

/-- `areSameLineage(lineage1, lineage2)`. -/
def areSameLineage : Option (List LineageEvent) → Option (List LineageEvent) → Bool
  | none, none => true
  | some l1, some l2 => areSameLineageList l1 l2
  | _, _ => false

/-- `areAdjacentIdRanges(firstStart, firstLength, secondStart)`. -/
def areAdjacentIdRanges (firstStart : ChangesetLocalId) (firstLength : Nat)
    (secondStart : ChangesetLocalId) : Bool :=
  firstStart + firstLength == secondStart

/-- `areMergeableChangeAtoms(lhs, lhsCount, rhs)`. -/
def areMergeableChangeAtoms (lhs : Option ChangeAtomId) (lhsCount : Nat)
    (rhs : Option ChangeAtomId) : Bool :=
  match lhs, rhs with
  | none, none => true
  | some l, some r => l.revision == r.revision && areAdjacentIdRanges l.localId lhsCount r.localId
  | _, _ => false

/-- `areMergeableCellIds(lhs, lhsCount, rhs)`. -/
def areMergeableCellIds (lhs : Option CellId) (lhsCount : Nat) (rhs : Option CellId) : Bool :=
  areMergeableChangeAtoms (lhs.map CellId.toChangeAtomId) lhsCount
      (rhs.map CellId.toChangeAtomId) &&
    areSameLineage (lhs.bind CellId.lineage) (rhs.bind CellId.lineage)

/-- `haveMergeableIdOverrides(lhs, lhsCount, rhs)` on the `idOverride` fields of
two detaches. -/
def haveMergeableIdOverrides (lhs : Option DetachIdOverride) (lhsCount : Nat)
    (rhs : Option DetachIdOverride) : Bool :=
  match lhs, rhs with
  | some l, some r =>
    l.type == r.type && areMergeableCellIds (some l.id) lhsCount (some r.id)
  | none, none => true
  | _, _ => false

/-- The type tag of a mark effect (`mark.type` in the source, where the six
tags are NoOp, Insert, MoveIn, Delete, MoveOut, AttachAndDetach). -/
def markTag : MarkEffect → Nat
  | .noop => 0
  | .attach (.insert _) => 1
  | .attach (.moveIn _) => 2
  | .detach (.delete _) => 3
  | .detach (.moveOut _) => 4
  | .attachAndDetach _ _ => 5

/-- The per-pair merging of two attach effects performed by `tryMergeEffects`:
same revision, adjacent ids, and for moves mergeable `finalEndpoint`s. -/
def tryMergeAttaches (lhs rhs : Attach) (lhsCount : Nat) : Option Attach :=
  match lhs, rhs with
  | .insert l, .insert r =>
    if l.revision == r.revision && l.id + lhsCount == r.id then some (.insert l) else none
  | .moveIn l, .moveIn r =>
    if l.revision == r.revision && l.id + lhsCount == r.id &&
        areMergeableChangeAtoms l.finalEndpoint lhsCount r.finalEndpoint then
      some (.moveIn l)
    else none
  | _, _ => none

/-- The per-pair merging of two detach effects performed by `tryMergeEffects`:
same revision, mergeable `idOverride`s, adjacent ids, and for moves mergeable
`finalEndpoint`s. -/
def tryMergeDetaches (lhs rhs : Detach) (lhsCount : Nat) : Option Detach :=
  match lhs, rhs with
  | .delete l, .delete r =>
    if l.revision == r.revision && haveMergeableIdOverrides l.idOverride lhsCount r.idOverride &&
        l.id + lhsCount == r.id then
      some (.delete l)
    else none
  | .moveOut l, .moveOut r =>
    if l.revision == r.revision && haveMergeableIdOverrides l.idOverride lhsCount r.idOverride &&
        l.id + lhsCount == r.id &&
        areMergeableChangeAtoms l.finalEndpoint lhsCount r.finalEndpoint then
      some (.moveOut l)
    else none
  | _, _ => none

/-- `tryMergeEffects(lhs, rhs, lhsCount)`. -/
def tryMergeEffects (lhs rhs : MarkEffect) (lhsCount : Nat) : Option MarkEffect :=
  match lhs, rhs with
  | .noop, .noop => some .noop
  | .attach la, .attach ra => (tryMergeAttaches la ra lhsCount).map .attach
  | .detach ld, .detach rd => (tryMergeDetaches ld rd lhsCount).map .detach
  | .attachAndDetach la ld, .attachAndDetach ra rd =>
    match tryMergeAttaches la ra lhsCount, tryMergeDetaches ld rd lhsCount with
    | some a, some d => some (.attachAndDetach a d)
    | _, _ => none
  | _, _ => none

/-- The vestigial-endpoint gate of `tryMergeMarks`: merging is blocked when
exactly one side carries a vestigial endpoint, or both do but they are not
mergeable. -/
def vestigialMergeBlocked {α : Type} (lhs rhs : Mark α) : Bool :=
  match lhs.vestigialEndpoint, rhs.vestigialEndpoint with
  | some l, some r => !areMergeableChangeAtoms (some l) lhs.count (some r)
  | none, none => false
  | _, _ => true

/-- `tryMergeMarks(lhs, rhs)`. -/
def tryMergeMarks {α : Type} (lhs rhs : Mark α) : Option (Mark α) :=
  if markTag rhs.effect != markTag lhs.effect then none
  else if !areMergeableCellIds lhs.cellId lhs.count rhs.cellId then none
  else if rhs.changes.isSome || lhs.changes.isSome then none
  else if vestigialMergeBlocked lhs rhs then none
  else
    match tryMergeEffects lhs.effect rhs.effect lhs.count with
    | none => none
    | some e => some { lhs with effect := e, count := lhs.count + rhs.count }

/-- `splitDetachEvent(detachEvent, length)`: advances the `localId`. -/
def splitDetachEvent (detachEvent : CellId) (length : Nat) : CellId :=
  { detachEvent with localId := detachEvent.localId + length }

/-- The `splitDetachEvent` of the source applied to a bare `ChangeAtomId`
(`finalEndpoint` and vestigial endpoints). -/
def splitAtom (a : ChangeAtomId) (length : Nat) : ChangeAtomId :=
  { a with localId := a.localId + length }

/-- The split of an attach effect performed by `splitMarkEffect`: the second
half's `id` (and `finalEndpoint`, if any) advance by `length`. -/
def splitAttach (a : Attach) (length : Nat) : Attach × Attach :=
  match a with
  | .insert i => (.insert i, .insert { i with id := i.id + length })
  | .moveIn m =>
    (.moveIn m,
      .moveIn { m with
        id := m.id + length
        finalEndpoint := m.finalEndpoint.map (splitAtom · length) })

/-- The split of a detach effect performed by `splitMarkEffect`: the second
half's `id` (and `idOverride`/`finalEndpoint`, if any) advance by `length`. -/
def splitDetach (d : Detach) (length : Nat) : Detach × Detach :=
  match d with
  | .delete del =>
    (.delete del,
      .delete { del with
        id := del.id + length
        idOverride := del.idOverride.map (fun o => { o with id := splitDetachEvent o.id length }) })
  | .moveOut m =>
    (.moveOut m,
      .moveOut { m with
        id := m.id + length
        idOverride := m.idOverride.map (fun o => { o with id := splitDetachEvent o.id length })
        finalEndpoint := m.finalEndpoint.map (splitAtom · length) })

/-- `splitMarkEffect(effect, length)`. -/
def splitMarkEffect (e : MarkEffect) (length : Nat) : MarkEffect × MarkEffect :=
  match e with
  | .noop => (.noop, .noop)
  | .attach a =>
    let p := splitAttach a length
    (.attach p.1, .attach p.2)
  | .detach d =>
    let p := splitDetach d length
    (.detach p.1, .detach p.2)
  | .attachAndDetach a d =>
    let pa := splitAttach a length
    let pd := splitDetach d length
    (.attachAndDetach pa.1 pd.1, .attachAndDetach pa.2 pd.2)

/-- `splitMark(mark, length)`: fails (`none`) unless `1 ≤ length < mark.count`;
the second mark's `cellId` and vestigial endpoint, when present, advance by
`length`. -/
def splitMark {α : Type} (m : Mark α) (length : Nat) : Option (Mark α × Mark α) :=
  let remainder := m.count - length
  if length < 1 ∨ remainder < 1 then none
  else
    let p := splitMarkEffect m.effect length
    let mark1 : Mark α := { m with effect := p.1, count := length }
    let mark2 : Mark α :=
      { m with
        effect := p.2
        count := remainder
        cellId := m.cellId.map (splitDetachEvent · length)
        vestigialEndpoint := m.vestigialEndpoint.map (splitAtom · length) }
    some (mark1, mark2)

/-- The two targets of a cross-field lookup (`CrossFieldTarget`). -/
inductive CrossFieldTarget where
  | source
  | destination
deriving DecidableEq, Repr

/-- An entry of a range map: a value stored for the id range
`[id, id + count)` of a revision. -/
structure RangeEntry (T : Type) where
  revision : Option RevisionTag
  id : Nat
  count : Nat
  value : T
deriving DecidableEq, Repr

/-- An entry of a query set: a queried id range of a revision. -/
structure QueryEntry where
  revision : Option RevisionTag
  id : Nat
  count : Nat
deriving DecidableEq, Repr

/-- Modelled from the spec: `getFromRangeMap` (a `util` helper not among the
provided sources) returns the value stored for an id-range overlapping
`[id, id + count)` (§4.4); the most recently stored entry wins. -/
def getFromRangeMap {T : Type} (m : List (RangeEntry T)) (revision : Option RevisionTag)
    (id count : Nat) : Option T :=
  (m.find? (fun e => e.revision == revision && areOverlappingIdRanges e.id e.count id count)).map
    RangeEntry.value

/-- Modelled from the spec: the query-set membership used by `set` — whether
some range already read this pass overlaps `[id, id + count)` for this
revision (§4.4). -/
def queriesOverlap (qs : List QueryEntry) (revision : Option RevisionTag)
    (id count : Nat) : Bool :=
  qs.any (fun q => q.revision == revision && areOverlappingIdRanges q.id q.count id count)

/-- The state of a `CrossFieldTable`: the two query sets, the invalidation
flag and the two range maps. -/
structure CrossFieldTable (T : Type) where
  srcQueries : List QueryEntry
  dstQueries : List QueryEntry
  isInvalidated : Bool
  mapSrc : List (RangeEntry T)
  mapDst : List (RangeEntry T)
deriving DecidableEq, Repr

/-- `newCrossFieldTable()`: empty query sets and maps, not invalidated. -/
def newCrossFieldTable (T : Type) : CrossFieldTable T :=
  { srcQueries := [], dstQueries := [], isInvalidated := false, mapSrc := [], mapDst := [] }

/-- The `getQueries` closure of `newCrossFieldTable`. -/
def CrossFieldTable.queriesOf {T : Type} (t : CrossFieldTable T) :
    CrossFieldTarget → List QueryEntry
  | .source => t.srcQueries
  | .destination => t.dstQueries

/-- The `getMap` closure of `newCrossFieldTable`. -/
def CrossFieldTable.mapOf {T : Type} (t : CrossFieldTable T) :
    CrossFieldTarget → List (RangeEntry T)
  | .source => t.mapSrc
  | .destination => t.mapDst

/-- `table.get(target, revision, id, count, addDependency)`: returns the looked
up value and the table, with the queried range recorded in the target's query
set when `addDependency` is set (the `addCrossFieldQuery` helper, modelled from
the spec §4.4). -/
def CrossFieldTable.get {T : Type} (t : CrossFieldTable T) (target : CrossFieldTarget)
    (revision : Option RevisionTag) (id count : Nat) (addDependency : Bool) :
    Option T × CrossFieldTable T :=
  let t' :=
    if addDependency then
      match target with
      | .source => { t with srcQueries := t.srcQueries ++ [⟨revision, id, count⟩] }
      | .destination => { t with dstQueries := t.dstQueries ++ [⟨revision, id, count⟩] }
    else t
  (getFromRangeMap (t.mapOf target) revision id count, t')

/-- `table.set(target, revision, id, count, value, invalidateDependents)`:
flips `isInvalidated` when dependents must be invalidated and the target's
query set shows an overlapping read, and stores the value in the target's map
(the `setInCrossFieldMap` helper, modelled from the spec §4.4). -/
def CrossFieldTable.set {T : Type} (t : CrossFieldTable T) (target : CrossFieldTarget)
    (revision : Option RevisionTag) (id count : Nat) (value : T)
    (invalidateDependents : Bool) : CrossFieldTable T :=
  let inv := invalidateDependents && queriesOverlap (t.queriesOf target) revision id count
  let t1 : CrossFieldTable T := { t with isInvalidated := t.isInvalidated || inv }
  match target with
  | .source => { t1 with mapSrc := ⟨revision, id, count, value⟩ :: t1.mapSrc }
  | .destination => { t1 with mapDst := ⟨revision, id, count, value⟩ :: t1.mapDst }

/-- `table.reset()`: clears the invalidation flag and both query sets, keeping
the maps. -/
def CrossFieldTable.reset {T : Type} (t : CrossFieldTable T) : CrossFieldTable T :=
  { t with isInvalidated := false, srcQueries := [], dstQueries := [] }

/-- The opposite cross-field target. -/
def CrossFieldTarget.opposite : CrossFieldTarget → CrossFieldTarget
  | .source => .destination
  | .destination => .source

/-- The state of a `DetachedNodeTracker`: the index-to-identity map of tracked
nodes and the recorded identity equivalences (`{old, new}` pairs). -/
structure DetachedNodeTracker where
  nodes : List (Nat × CellId)
  equivalences : List (CellId × CellId)
deriving DecidableEq, Repr

/-- A freshly constructed `DetachedNodeTracker`. -/
def newDetachedNodeTracker : DetachedNodeTracker :=
  { nodes := [], equivalences := [] }

/-- `Map.set` on the index-to-identity map: updates the entry in place when the
key is present, otherwise appends it (JS `Map` insertion-order semantics). -/
def mapSet (m : List (Nat × CellId)) (k : Nat) (v : CellId) : List (Nat × CellId) :=
  if m.any (fun e => e.1 == k) then
    m.map (fun e => if e.1 == k then (k, v) else e)
  else m ++ [(k, v)]

/-- The first pass of `DetachedNodeTracker.apply` (detaches): for every mark
that empties cells (asserting `0x70d` that it is a detach, modelled by `none`),
drops the covered tracked indices while recording an equivalence to the
detach's resulting id (failing, modelled by `none`, when no revision can be
synthesized for a dropped node), and shifts later indices down. -/
def applyDetachPass {α : Type} (rollback changeRev : Option RevisionTag) :
    Nat → DetachedNodeTracker → List (Mark α) → Option DetachedNodeTracker
  | _, t, [] => some t
  | index, t, m :: rest =>
    let inputLength := getInputLength m
    if markEmptiesCells m then
      match m.effect with
      | .detach d =>
        let after := index + inputLength
        let dropped := t.nodes.filter (fun e => decide (index ≤ e.1) && decide (e.1 < after))
        let rev := rollback <|> d.revision <|> changeRev
        if !dropped.isEmpty && rev.isNone then none
        else
          let newNodes := t.nodes.filterMap (fun e =>
            if index ≤ e.1 then
              if after ≤ e.1 then some (e.1 - inputLength, e.2) else none
            else some e)
          let newEquivalences := t.equivalences ++ dropped.map (fun e =>
            (e.2, ({ revision := rev, localId := d.id + (e.1 - index) } : CellId)))
          applyDetachPass rollback changeRev (index + inputLength)
            { nodes := newNodes, equivalences := newEquivalences } rest
      | _ => none
    else applyDetachPass rollback changeRev (index + inputLength) t rest

/-- The second pass of `DetachedNodeTracker.apply` (reattaches): for every
active reattach (whose cell id must exist; its absence is the source's `fail`,
modelled by `none`), shifts tracked indices at or after the insertion point by
the mark's input length and records the revived identities at the opened
indices; the index advances only past marks that do not empty cells. -/
def applyReattachPass {α : Type} :
    Nat → DetachedNodeTracker → List (Mark α) → Option DetachedNodeTracker
  | _, t, [] => some t
  | index, t, m :: rest =>
    let inputLength := getInputLength m
    let step : Option DetachedNodeTracker :=
      if isActiveReattach m then
        match m.cellId with
        | none => none
        | some detachEvent =>
          let shifted := t.nodes.map (fun e =>
            if index ≤ e.1 then (e.1 + inputLength, e.2) else e)
          let withNew := (List.range m.count).foldl (fun acc i =>
            mapSet acc (index + i)
              ({ revision := detachEvent.revision, localId := detachEvent.localId + i } : CellId))
            shifted
          some { t with nodes := withNew }
      else some t
    match step with
    | none => none
    | some t' =>
      applyReattachPass (if markEmptiesCells m then index else index + inputLength) t' rest

/-- `DetachedNodeTracker.apply(change)`: the detach pass followed by the
reattach pass. -/
def DetachedNodeTracker.apply {α : Type} (t : DetachedNodeTracker)
    (change : TaggedChange α) : Option DetachedNodeTracker :=
  match applyDetachPass change.rollbackOf change.revision 0 t change.change with
  | none => none
  | some t1 => applyReattachPass 0 t1 change.change

/-- `getUpdatedDetach(detach)`: follows the equivalence chain, replacing the
current id whenever it matches an equivalence's `old` side. -/
def getUpdatedDetach (t : DetachedNodeTracker) (detach : CellId) : CellId :=
  t.equivalences.foldl (fun curr eq =>
    if curr.revision == eq.1.revision && curr.localId == eq.1.localId then eq.2 else curr)
    detach

/-- Whether one revived unit of an active reattach collides with a tracked
node: the equivalence-chain-resolved identity of the unit equals (by revision
and local id) the identity of some currently tracked node. -/
def reattachUnitCollides (t : DetachedNodeTracker) (detachEvent : CellId) (i : Nat) : Bool :=
  let updated := getUpdatedDetach t
    ({ revision := detachEvent.revision, localId := detachEvent.localId + i } : CellId)
  t.nodes.any (fun e => updated.revision == e.2.revision && updated.localId == e.2.localId)

/-- Whether a mark is an active reattach some unit of which collides with a
currently tracked node (the collision condition of the claim, phrased as a
single predicate over the changeset). -/
def reattachCollides {α : Type} (t : DetachedNodeTracker) (m : Mark α) : Bool :=
  isActiveReattach m &&
    match m.cellId with
    | none => false
    | some detachEvent => (List.range m.count).any (reattachUnitCollides t detachEvent)

/-- Whether some mark of the changeset is a colliding active reattach. -/
def hasReattachCollision {α : Type} (t : DetachedNodeTracker) (c : Changeset α) : Bool :=
  c.any (reattachCollides t)

/-- The mark loop of `DetachedNodeTracker.isApplicable(change)`, with the early
`return false` of the source; the `fail` on an active reattach without a cell
id is modelled by `none`. -/
def isApplicableGo {α : Type} (t : DetachedNodeTracker) :
    List (Mark α) → Option Bool
  | [] => some true
  | m :: rest =>
    if isActiveReattach m then
      match m.cellId with
      | none => none
      | some detachEvent =>
        if (List.range m.count).any (reattachUnitCollides t detachEvent) then some false
        else isApplicableGo t rest
    else isApplicableGo t rest

/-- `DetachedNodeTracker.isApplicable(change)`. -/
def DetachedNodeTracker.isApplicable {α : Type} (t : DetachedNodeTracker)
    (change : Changeset α) : Option Bool :=
  isApplicableGo t change

/-- The mark loop of `isApplicable` with the tracker state threaded through
explicitly: the method body of the source reads `this.nodes` and
`this.equivalences` but contains no assignment to them, so every step passes
the state through unchanged. -/
def isApplicableGoSt {α : Type} (t : DetachedNodeTracker) :
    List (Mark α) → Option Bool × DetachedNodeTracker
  | [] => (some true, t)
  | m :: rest =>
    if isActiveReattach m then
      match m.cellId with
      | none => (none, t)
      | some detachEvent =>
        if (List.range m.count).any (reattachUnitCollides t detachEvent) then (some false, t)
        else isApplicableGoSt t rest
    else isApplicableGoSt t rest

/-- `isApplicable` as a state transformer: the returned tracker is the
receiver's state after the call. -/
def isApplicableSt {α : Type} (t : DetachedNodeTracker) (change : Changeset α) :
    Option Bool × DetachedNodeTracker :=
  isApplicableGoSt t change

/-! ## Helper lemmas -/

theorem areEqualChangeAtomIds_eq_true_iff (x y : ChangeAtomId) :
    areEqualChangeAtomIds x y = true ↔ x = y := by
  cases x with
  | mk xr xl =>
    cases y with
    | mk yr yl =>
      simp only [areEqualChangeAtomIds, Bool.and_eq_true, beq_iff_eq, ChangeAtomId.mk.injEq]
      tauto

theorem areSameLineageList_refl (l : List LineageEvent) : areSameLineageList l l = true := by
  induction l with
  | nil => rfl
  | cons e t ih => simp [areSameLineageList, ih]

theorem areSameLineage_refl (l : Option (List LineageEvent)) : areSameLineage l l = true := by
  cases l with
  | none => rfl
  | some l => simp [areSameLineage, areSameLineageList_refl]

theorem areMergeableChangeAtoms_split (a : Option ChangeAtomId) (k : Nat) :
    areMergeableChangeAtoms a k (a.map (splitAtom · k)) = true := by
  cases a with
  | none => rfl
  | some a => simp [areMergeableChangeAtoms, splitAtom, areAdjacentIdRanges]

theorem areMergeableCellIds_split (c : Option CellId) (k : Nat) :
    areMergeableCellIds c k (c.map (splitDetachEvent · k)) = true := by
  cases c with
  | none => rfl
  | some c =>
    simp [areMergeableCellIds, areMergeableChangeAtoms, splitDetachEvent, areAdjacentIdRanges,
      areSameLineage_refl]

theorem haveMergeableIdOverrides_split (o : Option DetachIdOverride) (k : Nat) :
    haveMergeableIdOverrides o k
      (o.map (fun x => { x with id := splitDetachEvent x.id k })) = true := by
  cases o with
  | none => rfl
  | some o =>
    have h : areMergeableCellIds (some o.id) k (some (splitDetachEvent o.id k)) = true := by
      simpa using areMergeableCellIds_split (some o.id) k
    simp [haveMergeableIdOverrides, h]

/-! ## Claim C4 -/

/-- C4: `areOutputCellsEmpty` classifies by mark type: a NoOp mark's output
cells are empty iff the mark carries a `cellId` (is a tombstone); Delete,
MoveOut and AttachAndDetach marks always have empty output cells; MoveIn and
Insert marks never do; and the dispatch is exhaustive over exactly these six
mark types (every mark effect is one of them). -/
theorem areOutputCellsEmpty_by_type {α : Type} (count : Nat) (cellId : Option CellId)
    (changes : Option α) (ve : Option ChangeAtomId) (ins : Insert) (mi : MoveIn)
    (del : Delete) (mo : MoveOut) (a : Attach) (d : Detach) :
    areOutputCellsEmpty (⟨.noop, count, cellId, changes, ve⟩ : Mark α) = cellId.isSome ∧
    areOutputCellsEmpty (⟨.detach (.delete del), count, cellId, changes, ve⟩ : Mark α) = true ∧
    areOutputCellsEmpty (⟨.detach (.moveOut mo), count, cellId, changes, ve⟩ : Mark α) = true ∧
    areOutputCellsEmpty (⟨.attachAndDetach a d, count, cellId, changes, ve⟩ : Mark α) = true ∧
    areOutputCellsEmpty (⟨.attach (.moveIn mi), count, cellId, changes, ve⟩ : Mark α) = false ∧
    areOutputCellsEmpty (⟨.attach (.insert ins), count, cellId, changes, ve⟩ : Mark α) = false ∧
    (∀ e : MarkEffect, e = .noop ∨ (∃ i, e = .attach (.insert i)) ∨
      (∃ m2, e = .attach (.moveIn m2)) ∨ (∃ d2, e = .detach (.delete d2)) ∨
      (∃ m2, e = .detach (.moveOut m2)) ∨ (∃ a2 d2, e = .attachAndDetach a2 d2)) := by
  refine ⟨rfl, rfl, rfl, rfl, rfl, rfl, ?_⟩
  intro e
  match e with
  | .noop => exact Or.inl rfl
  | .attach (.insert i) => exact Or.inr (Or.inl ⟨i, rfl⟩)
  | .attach (.moveIn m2) => exact Or.inr (Or.inr (Or.inl ⟨m2, rfl⟩))
  | .detach (.delete d2) => exact Or.inr (Or.inr (Or.inr (Or.inl ⟨d2, rfl⟩)))
  | .detach (.moveOut m2) => exact Or.inr (Or.inr (Or.inr (Or.inr (Or.inl ⟨m2, rfl⟩))))
  | .attachAndDetach a2 d2 => exact Or.inr (Or.inr (Or.inr (Or.inr (Or.inr ⟨a2, d2, rfl⟩))))

/-! ## Claim C5 -/

theorem areOverlappingIdRanges_self (id count : Nat) (h : 1 ≤ count) :
    areOverlappingIdRanges id count id count = true := by
  simp only [areOverlappingIdRanges, decide_eq_true_eq]
  omega

/-- C5: on any cross-field table, a `get(target, revision, id, count,
addDependency := true)` followed by a `set(target, revision, id2, count2,
value, invalidateDependents := true)` whose range overlaps the queried range
sets `isInvalidated` to true, and the value is stored in the corresponding
range map (it is what a lookup of the written range now returns). -/
theorem crossFieldTable_get_set_invalidates {T : Type} (t : CrossFieldTable T)
    (target : CrossFieldTarget) (revision : Option RevisionTag)
    (id count id2 count2 : Nat) (v : T)
    (hov : areOverlappingIdRanges id count id2 count2 = true) (hc2 : 1 ≤ count2) :
    (((t.get target revision id count true).2).set target revision id2 count2 v
      true).isInvalidated = true ∧
    getFromRangeMap
      ((((t.get target revision id count true).2).set target revision id2 count2 v
        true).mapOf target) revision id2 count2 = some v := by
  have hself := areOverlappingIdRanges_self id2 count2 hc2
  cases target <;>
    constructor <;>
      simp [CrossFieldTable.get, CrossFieldTable.set, CrossFieldTable.queriesOf,
        CrossFieldTable.mapOf, queriesOverlap, getFromRangeMap, List.any_append, hov, hself,
        List.find?]

/-- Witness for C5: on a fresh table, reading the source range `[5, 7)` of
revision 0 and then writing value 7 to the same range flips `isInvalidated`
and stores the value. -/
theorem crossFieldTable_get_set_invalidates_witness :
    areOverlappingIdRanges 5 2 5 2 = true ∧ 1 ≤ 2 ∧
    ((((newCrossFieldTable Nat).get .source (some 0) 5 2 true).2).set .source (some 0) 5 2 7
      true).isInvalidated = true ∧
    getFromRangeMap
      (((((newCrossFieldTable Nat).get .source (some 0) 5 2 true).2).set .source (some 0) 5 2 7
        true).mapOf .source) (some 0) 5 2 = some 7 := by
  refine ⟨by decide, by decide, ?_, ?_⟩
  · exact (crossFieldTable_get_set_invalidates (newCrossFieldTable Nat) .source (some 0)
      5 2 5 2 7 (by decide) (by decide)).1
  · exact (crossFieldTable_get_set_invalidates (newCrossFieldTable Nat) .source (some 0)
      5 2 5 2 7 (by decide) (by decide)).2

/-! ## Claim C10 -/

/-- C10: `set` with `invalidateDependents := true` consults only the query set
of its own target: a prior `get` on the opposite target with
`addDependency := true` never changes whether a `set` on the target flips
`isInvalidated` (for any revisions and ranges, overlapping or not), and on a
fresh table such a cross-target get/set pair leaves `isInvalidated` false. -/
theorem crossFieldTable_set_ignores_opposite_queries {T : Type} (t : CrossFieldTable T)
    (target : CrossFieldTarget) (rev rev2 : Option RevisionTag)
    (id count id2 count2 : Nat) (v : T) :
    (((t.get target.opposite rev id count true).2).set target rev2 id2 count2 v
        true).isInvalidated = (t.set target rev2 id2 count2 v true).isInvalidated ∧
    ((((newCrossFieldTable T).get target.opposite rev id count true).2).set target rev2 id2
        count2 v true).isInvalidated = false := by
  cases target <;>
    constructor <;>
      simp [CrossFieldTable.get, CrossFieldTable.set, CrossFieldTable.queriesOf,
        CrossFieldTarget.opposite, newCrossFieldTable, queriesOverlap]

/-! ## Claim C1 -/

/-- C1: in the lineage tie-break case of `compareCellPositionsUsingTombstones`
(the two cells differ and neither changeset's knowledge set contains the other
cell's revision): if the new cell's revision is undefined the result is
`NewThenOld`; when `metadata.getIndex` is defined for both cells' revisions the
result is `NewThenOld` iff the new cell's revision index is greater than the
old cell's; and when exactly one of the two revisions has a metadata index the
cell with the indexed revision is treated as younger and sorts first. -/
theorem compareTombstones_tiebreak (a b : ChangeAtomId)
    (Ka Kb : List (Option RevisionTag)) (md : RevisionMetadataSource)
    (hne : a ≠ b) (hKa : Ka.contains b.revision = false)
    (hKb : Kb.contains a.revision = false) :
    (b.revision = none →
      compareCellPositionsUsingTombstones a b Ka Kb md = some CellOrder.newThenOld) ∧
    (∀ ra rb oi ni, a.revision = some ra → b.revision = some rb →
      md.getIndex ra = some oi → md.getIndex rb = some ni →
      compareCellPositionsUsingTombstones a b Ka Kb md =
        some (if oi < ni then CellOrder.newThenOld else CellOrder.oldThenNew)) ∧
    (∀ ra rb ni, a.revision = some ra → b.revision = some rb →
      md.getIndex ra = none → md.getIndex rb = some ni →
      compareCellPositionsUsingTombstones a b Ka Kb md = some CellOrder.newThenOld) ∧
    (∀ ra rb oi, a.revision = some ra → b.revision = some rb →
      md.getIndex ra = some oi → md.getIndex rb = none →
      compareCellPositionsUsingTombstones a b Ka Kb md = some CellOrder.oldThenNew) := by
  have hEq : areEqualChangeAtomIds a b = false := by
    cases hE : areEqualChangeAtomIds a b
    · rfl
    · exact absurd ((areEqualChangeAtomIds_eq_true_iff a b).mp hE) hne
  replace hKa : b.revision ∉ Ka := by simpa using hKa
  replace hKb : a.revision ∉ Kb := by simpa using hKb
  refine ⟨?_, ?_, ?_, ?_⟩
  · intro hbrev
    rw [hbrev] at hKa
    simp [compareCellPositionsUsingTombstones, hEq, hKa, hKb, hbrev]
  · intro ra rb oi ni harev hbrev hoi hni
    rw [hbrev] at hKa
    rw [harev] at hKb
    simp [compareCellPositionsUsingTombstones, hEq, hKa, hKb, harev, hbrev, hoi, hni]
  · intro ra rb ni harev hbrev hoi hni
    rw [hbrev] at hKa
    rw [harev] at hKb
    simp [compareCellPositionsUsingTombstones, hEq, hKa, hKb, harev, hbrev, hoi, hni]
  · intro ra rb oi harev hbrev hoi hni
    rw [hbrev] at hKa
    rw [harev] at hKb
    simp [compareCellPositionsUsingTombstones, hEq, hKa, hKb, harev, hbrev, hoi, hni]

/-- Witness for C1: two cells from revisions 0 and 1, empty knowledge sets and
metadata indexing both revisions by themselves; the tie-break orders the cell
of revision 1 (the newer) first. -/
theorem compareTombstones_tiebreak_witness :
    (⟨some 0, 0⟩ : ChangeAtomId) ≠ (⟨some 1, 0⟩ : ChangeAtomId) ∧
    compareCellPositionsUsingTombstones ⟨some 0, 0⟩ ⟨some 1, 0⟩ [] []
      ⟨fun r => some r, fun r => r⟩ = some CellOrder.newThenOld := by
  refine ⟨by decide, ?_⟩
  have h := (compareTombstones_tiebreak ⟨some 0, 0⟩ ⟨some 1, 0⟩ [] []
    ⟨fun r => some r, fun r => r⟩ (by decide) (by decide) (by decide)).2.1
    0 1 0 1 rfl rfl rfl rfl
  simpa using h

/-! ## Claim C6 -/

/-- C6: for every Delete mark whose computed input cell id equals its computed
output cell id (as change atoms), `isImpactful` returns false, and `settleMark`
returns a NoOp mark carrying only the original `cellId`, `changes` (if any) and
`count`, with all Delete effect fields removed. -/
theorem delete_sameCellIds_notImpactful_settles {α : Type} (m : Mark α)
    (revision : Option RevisionTag) (md : RevisionMetadataSource) (d : Delete)
    (inputId outputId : CellId)
    (hd : m.effect = .detach (.delete d))
    (hin : getInputCellId m revision (some md) = some inputId)
    (hout : getOutputCellId m revision (some md) = some outputId)
    (heq : areEqualChangeAtomIds inputId.toChangeAtomId outputId.toChangeAtomId = true) :
    isImpactful m revision md = some false ∧
    settleMark m revision md =
      some { effect := .noop, count := m.count, cellId := m.cellId, changes := m.changes,
             vestigialEndpoint := none } := by
  have himp : isImpactful m revision md = some false := by
    obtain ⟨eff, cnt, cid, chg, ve⟩ := m
    simp only at hd
    subst hd
    simp only [isImpactful]
    rw [hin, hout]
    simp [heq]
  refine ⟨himp, ?_⟩
  simp [settleMark, himp, omitMarkEffect]

/-- Witness for C6: a Delete of two already-removed nodes whose `idOverride`
redirects its output to the very cell it targets; it is not impactful and
settles to a bare tombstone. -/
theorem delete_sameCellIds_notImpactful_settles_witness :
    isImpactful
      ({ effect := .detach (.delete
          { revision := some 1, id := 5,
            idOverride := some ⟨.redetach, { revision := some 0, localId := 3 }⟩ })
         count := 2
         cellId := some { revision := some 0, localId := 3 } } : Mark Nat)
      none ⟨fun _ => none, fun r => r⟩ = some false ∧
    settleMark
      ({ effect := .detach (.delete
          { revision := some 1, id := 5,
            idOverride := some ⟨.redetach, { revision := some 0, localId := 3 }⟩ })
         count := 2
         cellId := some { revision := some 0, localId := 3 } } : Mark Nat)
      none ⟨fun _ => none, fun r => r⟩ =
      some { effect := .noop, count := 2, cellId := some { revision := some 0, localId := 3 } } := by
  have h := delete_sameCellIds_notImpactful_settles
    ({ effect := .detach (.delete
        { revision := some 1, id := 5,
          idOverride := some ⟨.redetach, { revision := some 0, localId := 3 }⟩ })
       count := 2
       cellId := some { revision := some 0, localId := 3 } } : Mark Nat)
    none ⟨fun _ => none, fun r => r⟩
    { revision := some 1, id := 5,
      idOverride := some ⟨.redetach, { revision := some 0, localId := 3 }⟩ }
    { revision := some 0, localId := 3 } { revision := some 0, localId := 3 }
    rfl rfl rfl (by decide)
  exact ⟨h.1, h.2⟩

/-! ## Claim C7 -/

/-- The AttachAndDetach mark used to refute claim C7: its attach component is a
`MoveIn`, hence not a fresh insert. -/
def moveInRenameMark : Mark Nat :=
  { effect := .attachAndDetach (.moveIn { id := 0 }) (.delete { id := 1 })
    count := 1
    cellId := some { revision := some 0, localId := 0 } }

/-- Counterexample to C7: for an AttachAndDetach mark whose attach is a
`MoveIn` (so not a fresh insert — `isNewAttachEffect` is false),
`normalizeCellRename` returns the mark unchanged instead of the single detach
mark the claim predicts. -/
theorem normalizeCellRename_moveIn_cex :
    isNewAttachEffect moveInRenameMark.effect moveInRenameMark.cellId none = false ∧
    normalizeCellRename moveInRenameMark none = some moveInRenameMark ∧
    normalizeCellRename moveInRenameMark none ≠
      some { effect := .detach (.delete { id := 1 }), count := moveInRenameMark.count,
             cellId := moveInRenameMark.cellId } := by
  refine ⟨by decide, by decide, by decide⟩

/-- C7 (amended): for every AttachAndDetach mark (which must carry a cellId),
if its attach is a fresh insert, or is not an Insert at all (e.g. a MoveIn),
`normalizeCellRename` returns the mark unchanged modulo node-change
attachment; otherwise (the attach is a revival Insert) it returns a single
detach mark carrying the original detach's fields plus the AttachAndDetach's
`count` and `cellId`, with the node change taken from the argument or the
original mark. -/
theorem normalizeCellRename_amended {α : Type} (m : Mark α) (nc : Option α)
    (a : Attach) (d : Detach) (c : CellId)
    (he : m.effect = .attachAndDetach a d) (hc : m.cellId = some c) :
    (isInsertAttach a = false → normalizeCellRename m nc = withNodeChange m nc) ∧
    (isNewAttachEffect (.attach a) m.cellId none = true →
      normalizeCellRename m nc = withNodeChange m nc) ∧
    (isInsertAttach a = true → isNewAttachEffect (.attach a) m.cellId none = false →
      normalizeCellRename m nc =
        withNodeChange ({ effect := .detach d, count := m.count, cellId := m.cellId } : Mark α)
          (nc <|> m.changes)) := by
  obtain ⟨eff, cnt, cid, chg, ve⟩ := m
  simp only at he hc
  subst he
  subst hc
  refine ⟨?_, ?_, ?_⟩
  · intro hIns
    simp [normalizeCellRename, isNewAttachEffect, hIns]
  · intro hNew
    simp only [isNewAttachEffect] at hNew
    simp [normalizeCellRename, isNewAttachEffect, hNew]
  · intro hIns hNew
    simp only [isNewAttachEffect] at hNew
    simp [normalizeCellRename, isNewAttachEffect, hIns, hNew]

/-- Witness for the amended C7: an AttachAndDetach whose attach is a revival
Insert (its revision differs from the cell's) folds into a single Delete mark
with the AttachAndDetach's count and cellId. -/
theorem normalizeCellRename_amended_witness :
    normalizeCellRename
      ({ effect := .attachAndDetach (.insert { revision := some 1, id := 0 })
          (.delete { revision := some 1, id := 2 })
         count := 1
         cellId := some { revision := some 0, localId := 5 } } : Mark Nat) none =
      some { effect := .detach (.delete { revision := some 1, id := 2 }), count := 1,
             cellId := some { revision := some 0, localId := 5 } } := by
  have h := (normalizeCellRename_amended
    ({ effect := .attachAndDetach (.insert { revision := some 1, id := 0 })
        (.delete { revision := some 1, id := 2 })
       count := 1
       cellId := some { revision := some 0, localId := 5 } } : Mark Nat) none
    (.insert { revision := some 1, id := 0 }) (.delete { revision := some 1, id := 2 })
    { revision := some 0, localId := 5 } rfl rfl).2.2 (by decide) (by decide)
  exact h.trans (by decide)

/-! ## Claim C8 -/

theorem isActiveReattach_cellId_isSome {α : Type} (m : Mark α)
    (h : isActiveReattach m = true) : m.cellId.isSome = true := by
  simp only [isActiveReattach, Bool.and_eq_true] at h
  exact h.2

theorem isApplicableGo_eq_collision {α : Type} (t : DetachedNodeTracker) :
    ∀ ms : List (Mark α), isApplicableGo t ms = some (!hasReattachCollision t ms) := by
  intro ms
  induction ms with
  | nil => rfl
  | cons m rest ih =>
    cases hR : isActiveReattach m with
    | false =>
      simp only [isApplicableGo, hR, if_false, Bool.false_eq_true]
      simp [hasReattachCollision, reattachCollides, hR] at ih ⊢
      exact ih
    | true =>
      have hsome := isActiveReattach_cellId_isSome m hR
      cases hcid : m.cellId with
      | none => rw [hcid] at hsome; simp at hsome
      | some detachEvent =>
        cases hcol : (List.range m.count).any (reattachUnitCollides t detachEvent) with
        | true =>
          simp [isApplicableGo, hasReattachCollision, reattachCollides, hR, hcid, hcol]
        | false =>
          simp only [isApplicableGo, hR, hcid, hcol, if_true, if_false]
          simp [hasReattachCollision, reattachCollides, hR, hcid, hcol] at ih ⊢
          exact ih

/-- C8: for every tracker obtained by `apply`ing a changeset, `isApplicable`
on a second changeset returns a boolean (never hits a failure): `false`
exactly when the changeset contains an active reattach some revived unit of
which resolves (through the equivalence chain) to the identity of a currently
tracked live node, and `true` when no such collision exists. -/
theorem isApplicable_iff_no_collision {α : Type} (t0 t : DetachedNodeTracker)
    (c : TaggedChange α) (c2 : Changeset α) (_happ : t0.apply c = some t) :
    DetachedNodeTracker.isApplicable t c2 = some (!hasReattachCollision t c2) :=
  isApplicableGo_eq_collision t c2

/-- The reviving insert mark used in the C8 witness: it revives the node
detached as `(revision 0, localId 0)`. -/
def revivingInsertMark : Mark Nat :=
  { effect := .attach (.insert { revision := some 1, id := 0 })
    count := 1
    cellId := some { revision := some 0, localId := 0 } }

/-- Witness for C8: applying a changeset that revives node `(0, 0)` makes the
tracker track that identity as live, after which a second changeset reviving
the same identity is reported inapplicable (`some false`, no failure). -/
theorem isApplicable_iff_no_collision_witness :
    newDetachedNodeTracker.apply
      ({ revision := some 1, change := [revivingInsertMark] } : TaggedChange Nat) =
      some { nodes := [(0, { revision := some 0, localId := 0 })], equivalences := [] } ∧
    DetachedNodeTracker.isApplicable
      ({ nodes := [(0, { revision := some 0, localId := 0 })], equivalences := [] } :
        DetachedNodeTracker) [revivingInsertMark] = some false ∧
    hasReattachCollision
      ({ nodes := [(0, { revision := some 0, localId := 0 })], equivalences := [] } :
        DetachedNodeTracker) [revivingInsertMark] = true := by
  refine ⟨by decide, ?_, by decide⟩
  have h := isApplicable_iff_no_collision newDetachedNodeTracker
    { nodes := [(0, { revision := some 0, localId := 0 })], equivalences := [] }
    ({ revision := some 1, change := [revivingInsertMark] } : TaggedChange Nat)
    [revivingInsertMark] (by decide)
  exact h.trans (by decide)

/-! ## Claim C9 -/

theorem isApplicableGoSt_state {α : Type} (t : DetachedNodeTracker) :
    ∀ ms : List (Mark α),
      (isApplicableGoSt t ms).2 = t ∧ (isApplicableGoSt t ms).1 = isApplicableGo t ms := by
  intro ms
  induction ms with
  | nil => exact ⟨rfl, rfl⟩
  | cons m rest ih =>
    cases hR : isActiveReattach m with
    | false => simpa [isApplicableGoSt, isApplicableGo, hR] using ih
    | true =>
      cases hcid : m.cellId with
      | none => simp [isApplicableGoSt, isApplicableGo, hR, hcid]
      | some detachEvent =>
        cases hcol : (List.range m.count).any (reattachUnitCollides t detachEvent) with
        | true => simp [isApplicableGoSt, isApplicableGo, hR, hcid, hcol]
        | false => simpa [isApplicableGoSt, isApplicableGo, hR, hcid, hcol] using ih

/-- C9: `isApplicable` is a pure query — the method body reads but never
assigns the tracker's `nodes` and `equivalences`, so the state-threaded version
returns the tracker unchanged with the same boolean, and interleaving an
`isApplicable` call before a later `apply` or `isApplicable` never affects
their results. -/
theorem isApplicable_leaves_tracker_unchanged {α : Type} (t : DetachedNodeTracker)
    (c : Changeset α) :
    (isApplicableSt t c).2 = t ∧
    (isApplicableSt t c).1 = DetachedNodeTracker.isApplicable t c ∧
    (∀ c2 : Changeset α,
      DetachedNodeTracker.isApplicable (isApplicableSt t c).2 c2 =
        DetachedNodeTracker.isApplicable t c2) ∧
    (∀ ch : TaggedChange α,
      DetachedNodeTracker.apply (isApplicableSt t c).2 ch = DetachedNodeTracker.apply t ch) := by
  have h := isApplicableGoSt_state t c
  exact ⟨h.1, h.2, fun c2 => by rw [isApplicableSt, h.1], fun ch => by rw [isApplicableSt, h.1]⟩

/-! ## Claim C2 -/

/-- The validity notion of the spec for marks (§3): a positive `count`, and a
mark spanning more than one cell carries no nested node change.  The second
clause is the system invariant that node-level changes attach to single nodes:
without it `splitMark` itself would be unsound, since it copies `changes`
verbatim into both halves of a split (duplicating a node change across two
disjoint ranges), and the spec itself notes that node changes are "not
themselves concatenable" (§4.2). -/
def validMark {α : Type} (m : Mark α) : Prop :=
  1 ≤ m.count ∧ (1 < m.count → m.changes = none)

theorem markTag_splitAttach (a : Attach) (k : Nat) :
    markTag (.attach (splitAttach a k).1) = markTag (.attach a) ∧
    markTag (.attach (splitAttach a k).2) = markTag (.attach a) := by
  cases a <;> simp [splitAttach, markTag]

theorem markTag_splitDetach (d : Detach) (k : Nat) :
    markTag (.detach (splitDetach d k).1) = markTag (.detach d) ∧
    markTag (.detach (splitDetach d k).2) = markTag (.detach d) := by
  cases d <;> simp [splitDetach, markTag]

theorem markTag_split (e : MarkEffect) (k : Nat) :
    markTag (splitMarkEffect e k).1 = markTag e ∧
    markTag (splitMarkEffect e k).2 = markTag e := by
  cases e with
  | noop => exact ⟨rfl, rfl⟩
  | attach a => simpa [splitMarkEffect] using markTag_splitAttach a k
  | detach d => simpa [splitMarkEffect] using markTag_splitDetach d k
  | attachAndDetach a d => simp [splitMarkEffect, markTag]

theorem tryMergeAttaches_split (a : Attach) (k : Nat) :
    tryMergeAttaches (splitAttach a k).1 (splitAttach a k).2 k = some a := by
  cases a with
  | insert i => simp [splitAttach, tryMergeAttaches]
  | moveIn m =>
    simp [splitAttach, tryMergeAttaches, areMergeableChangeAtoms_split]

theorem tryMergeDetaches_split (d : Detach) (k : Nat) :
    tryMergeDetaches (splitDetach d k).1 (splitDetach d k).2 k = some d := by
  cases d with
  | delete del =>
    simp [splitDetach, tryMergeDetaches, haveMergeableIdOverrides_split]
  | moveOut m =>
    simp [splitDetach, tryMergeDetaches, haveMergeableIdOverrides_split,
      areMergeableChangeAtoms_split]

theorem tryMergeEffects_split (e : MarkEffect) (k : Nat) :
    tryMergeEffects (splitMarkEffect e k).1 (splitMarkEffect e k).2 k = some e := by
  cases e with
  | noop => rfl
  | attach a => simp [splitMarkEffect, tryMergeEffects, tryMergeAttaches_split]
  | detach d => simp [splitMarkEffect, tryMergeEffects, tryMergeDetaches_split]
  | attachAndDetach a d =>
    simp [splitMarkEffect, tryMergeEffects, tryMergeAttaches_split, tryMergeDetaches_split]

theorem vestigialMergeBlocked_split {α : Type} (e1 e2 : MarkEffect) (k cnt : Nat)
    (cid : Option CellId) (ve : Option ChangeAtomId) :
    vestigialMergeBlocked (⟨e1, k, cid, none, ve⟩ : Mark α)
      ⟨e2, cnt, cid.map (splitDetachEvent · k), none, ve.map (splitAtom · k)⟩ = false := by
  cases ve with
  | none => rfl
  | some v =>
    have h : areMergeableChangeAtoms (some v) k (some (splitAtom v k)) = true := by
      simpa using areMergeableChangeAtoms_split (some v) k
    simp [vestigialMergeBlocked, h]

/-- C2: the split/merge round-trip law — for every valid mark `m` and every
`1 ≤ k < m.count`, merging the two marks returned by `splitMark m k` with
`tryMergeMarks` succeeds and returns a mark structurally equal to `m`. -/
theorem splitMark_tryMergeMarks_roundtrip {α : Type} (m : Mark α) (k : Nat)
    (hv : validMark m) (hk1 : 1 ≤ k) (hk2 : k < m.count) :
    (splitMark m k).bind (fun p => tryMergeMarks p.1 p.2) = some m := by
  obtain ⟨eff, cnt, cid, chg, ve⟩ := m
  obtain ⟨hpos, hchg⟩ := hv
  dsimp only at hpos hchg hk2
  have hcnone : chg = none := hchg (lt_of_le_of_lt hk1 hk2)
  subst hcnone
  have hif : ¬(k < 1 ∨ cnt - k < 1) := by omega
  have hcnt : k + (cnt - k) = cnt := by omega
  simp only [splitMark, hif, if_false, Option.some_bind]
  simp only [tryMergeMarks, (markTag_split eff k).1, (markTag_split eff k).2, bne_self_eq_false,
    Bool.false_eq_true, if_false, areMergeableCellIds_split, Bool.not_true, Option.isSome_none,
    Bool.or_self, vestigialMergeBlocked_split, tryMergeEffects_split, hcnt]

/-- Witness for C2 (scenario 2 of the spec): a Delete mark of count 3 split at
length 1 merges back to the original mark. -/
theorem splitMark_tryMergeMarks_roundtrip_witness :
    validMark ({ effect := .detach (.delete { id := 0 }), count := 3 } : Mark Nat) ∧
    (splitMark ({ effect := .detach (.delete { id := 0 }), count := 3 } : Mark Nat) 1).bind
      (fun p => tryMergeMarks p.1 p.2) =
      some { effect := .detach (.delete { id := 0 }), count := 3 } := by
  constructor
  · exact ⟨by decide, fun _ => rfl⟩
  · exact splitMark_tryMergeMarks_roundtrip
      ({ effect := .detach (.delete { id := 0 }), count := 3 } : Mark Nat) 1
      ⟨by decide, fun _ => rfl⟩ (by decide) (by decide)

/-! ## Claim C3 -/

/-- The opposite of a cell order (`SameCell` is self-opposite). -/
def oppositeOrder : CellOrder → CellOrder
  | .sameCell => .sameCell
  | .oldThenNew => .newThenOld
  | .newThenOld => .oldThenNew

/-- The comparability preconditions of claim C3, drawn from the documented
caller-enforced assumptions of `compareCellPositionsUsingTombstones`: each
cell is "referenced or named by a mark or tombstone" of its own changeset, and
each knowledge set holds "the set of revisions that the ... changeset has cell
representations for", so each knowledge set contains its own cell's revision;
`metadata.getIndex` is "a total order over known revisions" (injective); and
both comparisons complete without hitting an assertion. -/
def ComparableCellPair (a b : ChangeAtomId) (Ka Kb : List (Option RevisionTag))
    (md : RevisionMetadataSource) : Prop :=
  Ka.contains a.revision = true ∧ Kb.contains b.revision = true ∧
  (∀ r1 r2 i, md.getIndex r1 = some i → md.getIndex r2 = some i → r1 = r2) ∧
  (compareCellPositionsUsingTombstones a b Ka Kb md).isSome = true ∧
  (compareCellPositionsUsingTombstones b a Kb Ka md).isSome = true

/-- C3: cell-ordering antisymmetry — for every comparable pair of cells,
`compareCellPositionsUsingTombstones` with the cells (and knowledge sets)
swapped yields the opposite result, and the result is `SameCell` exactly when
the two cells are equal. -/
theorem compareTombstones_antisymm (a b : ChangeAtomId)
    (Ka Kb : List (Option RevisionTag)) (md : RevisionMetadataSource)
    (h : ComparableCellPair a b Ka Kb md) :
    compareCellPositionsUsingTombstones b a Kb Ka md =
      (compareCellPositionsUsingTombstones a b Ka Kb md).map oppositeOrder ∧
    (compareCellPositionsUsingTombstones a b Ka Kb md = some CellOrder.sameCell ↔ a = b) := by
  obtain ⟨ha, hb, hinj, h1, h2⟩ := h
  by_cases hab : a = b
  · subst hab
    have hE : areEqualChangeAtomIds a a = true := (areEqualChangeAtomIds_eq_true_iff a a).mpr rfl
    simp [compareCellPositionsUsingTombstones, hE, oppositeOrder]
  · have hEab : areEqualChangeAtomIds a b = false := by
      cases hE : areEqualChangeAtomIds a b
      · rfl
      · exact absurd ((areEqualChangeAtomIds_eq_true_iff a b).mp hE) hab
    have hEba : areEqualChangeAtomIds b a = false := by
      cases hE : areEqualChangeAtomIds b a
      · rfl
      · exact absurd ((areEqualChangeAtomIds_eq_true_iff b a).mp hE).symm hab
    replace ha : a.revision ∈ Ka := by simpa using ha
    replace hb : b.revision ∈ Kb := by simpa using hb
    by_cases hp : b.revision ∈ Ka <;> by_cases hq : a.revision ∈ Kb
    · simp [compareCellPositionsUsingTombstones, hEab, hp, hq] at h1
    · simp [compareCellPositionsUsingTombstones, hEab, hEba, hp, hq, oppositeOrder, hab]
    · simp [compareCellPositionsUsingTombstones, hEab, hEba, hp, hq, oppositeOrder, hab]
    · rcases hbrev : b.revision with _ | rb <;> rcases harev : a.revision with _ | ra <;>
        rw [hbrev] at hb hp <;> rw [harev] at ha hq
      · exact absurd hb hq
      · simp [compareCellPositionsUsingTombstones, hEba, hp, hq, hbrev, harev] at h2
      · simp [compareCellPositionsUsingTombstones, hEab, hp, hq, hbrev, harev] at h1
      · have hrr : ra ≠ rb := by
          intro hEqr
          rw [← hEqr] at hp
          exact hp ha
        rcases hoi : md.getIndex ra with _ | oi <;> rcases hni : md.getIndex rb with _ | ni
        · simp [compareCellPositionsUsingTombstones, hEab, hp, hq, hbrev, harev,
            hoi, hni] at h1
        · simp [compareCellPositionsUsingTombstones, hEab, hEba, hp, hq, hbrev, harev,
            hoi, hni, oppositeOrder, hab]
        · simp [compareCellPositionsUsingTombstones, hEab, hEba, hp, hq, hbrev, harev,
            hoi, hni, oppositeOrder, hab]
        · have hnei : oi ≠ ni := fun hEqi => hrr (hinj ra rb oi hoi (hEqi ▸ hni))
          rcases Nat.lt_or_ge oi ni with hlt | hge
          · have hnlt : ¬ ni < oi := by omega
            simp [compareCellPositionsUsingTombstones, hEab, hEba, hp, hq, hbrev, harev,
              hoi, hni, oppositeOrder, hab, hlt, hnlt]
          · have hlt2 : ni < oi := by omega
            have hnlt : ¬ oi < ni := by omega
            simp [compareCellPositionsUsingTombstones, hEab, hEba, hp, hq, hbrev, harev,
              hoi, hni, oppositeOrder, hab, hlt2, hnlt]

/-- Witness for C3: the comparable pair of cells from revisions 0 and 1 whose
changesets each know only their own revision; swapping the arguments swaps
`NewThenOld` and `OldThenNew`, and neither direction reports `SameCell`. -/
theorem compareTombstones_antisymm_witness :
    compareCellPositionsUsingTombstones ⟨some 1, 0⟩ ⟨some 0, 0⟩ [some 1] [some 0]
        ⟨fun r => some r, fun r => r⟩ =
      (compareCellPositionsUsingTombstones ⟨some 0, 0⟩ ⟨some 1, 0⟩ [some 0] [some 1]
        ⟨fun r => some r, fun r => r⟩).map oppositeOrder ∧
    (compareCellPositionsUsingTombstones ⟨some 0, 0⟩ ⟨some 1, 0⟩ [some 0] [some 1]
        ⟨fun r => some r, fun r => r⟩ = some CellOrder.sameCell ↔
      (⟨some 0, 0⟩ : ChangeAtomId) = ⟨some 1, 0⟩) :=
  compareTombstones_antisymm ⟨some 0, 0⟩ ⟨some 1, 0⟩ [some 0] [some 1]
    ⟨fun r => some r, fun r => r⟩
    ⟨by decide, by decide,
      fun r1 r2 i h1 h2 => (Option.some.inj h1).trans (Option.some.inj h2).symm,
      by decide, by decide⟩

end SeqField
